import Mathlib

/-
Shallow embedding of the slot-computation core of the cerbo-calendar
repository (backend/availability.web.js in its two revisions; the second
revision is the unnamed source file whose header also reads
backend/availability.web.js).

Modelling conventions:

* Time instants are integers counting whole minutes.  Concrete inputs use
  minutes elapsed since 2025-03-27T00:00:00Z.  All date arithmetic in the
  source operates at whole-minute granularity (milliseconds divided by
  60000), so this encoding is exact.  The JS getMinutes call is modelled
  as t % 60, the minute-of-hour in UTC or any whole-hour-offset timezone.

* JS Array.prototype.sort is modelled as a stable insertion sort driven by
  the numeric comparator: an element x is placed before an existing
  element b exactly when cmp b x > 0, which is the stable behaviour
  ECMAScript mandates for consistent comparators.

* The upstream API client (cerbo_api.js, AppointmentsResponse.fromJson)
  converts start_date_time and end_date_time to Date objects before the
  availability module sees them, hence appointments are records of two
  integer instants plus the optional internal type name and status string.
  The hypothetical candidate appointment inserted by the work-block
  analysis carries fresh Date objects, so the JS identity test
  (appt.start_date_time === temp.start_date_time) holds exactly for the
  candidate record itself; it is modelled by an isCandidate flag.

* While loops are embedded with an explicit fuel argument equal to the
  integer span of the loop, which strictly dominates the number of
  iterations (the loop index advances by 30 minutes per iteration).
-/

namespace Cerbo

/-- Appointment-type catalogue entry (class PhysioSpaAppointmentType). -/
structure ApptType where
  id : Nat
  displayName : String
  internalName : String
  duration : Int
  dualBookable : Bool
deriving Repr, DecidableEq

/-- ADMIN_FLEXIBLE_TYPE_ID of the second revision (the first revision uses
135; only membership in the ignore list matters below). -/
def ADMIN_FLEXIBLE_TYPE_ID : Nat := 1

/-- BUFFER_DURATION constant: buffers last 30 minutes. -/
def BUFFER_DURATION : Int := 30

/-- The static appointmentTypes catalogue. -/
def appointmentTypes : List ApptType :=
  [ ⟨151, "Acupuncture", "Acupuncture.Follow-up, self-schd (50 min)", 60, false⟩,
    ⟨144, "Vagus Nerve Stem Therapy", "Vagus Nerve Stem Therapy- Initial", 30, true⟩,
    ⟨ADMIN_FLEXIBLE_TYPE_ID, "ADMIN-Flexible", "ADMIN-Flexible", 30, false⟩ ]

/-- findAppointmentTypeByInternalName: first catalogue entry with the given
internal name. -/
def findAppointmentTypeByInternalName (internalName : String) : Option ApptType :=
  appointmentTypes.find? (fun t => t.internalName == internalName)

/-- getAppointmentTypeIdFromInternalName (ids are numbers; the source
stringifies them only to compare, and String is injective on numbers). -/
def getAppointmentTypeIdFromInternalName (internalName : String) : Option Nat :=
  (findAppointmentTypeByInternalName internalName).map (fun t => t.id)

/-- getAppointmentTypesToIgnore: the buffer/admin type is excluded from
work-block accounting. -/
def getAppointmentTypesToIgnore : List Nat := [ADMIN_FLEXIBLE_TYPE_ID]

/-- A scheduled appointment as the availability module reads it:
start_date_time, end_date_time (minutes), appointment_type_internal_name
and status.  none models an absent (or empty, hence falsy) field. -/
structure SchedAppt where
  start : Int
  stop : Int
  internalName : Option String
  status : Option String
deriving Repr, DecidableEq

/-- The filter keeping work appointments: drop an appointment whose
internal name resolves to a catalogue id in the ignore list. -/
def isWorkAppointment (a : SchedAppt) : Bool :=
  match a.internalName with
  | some n =>
    match getAppointmentTypeIdFromInternalName n with
    | some tid => !(getAppointmentTypesToIgnore.contains tid)
    | none => true
  | none => true

/-- workAppointments as computed in calculateAvailableTimeSlots. -/
def workAppointmentsOf (scheduled : List SchedAppt) : List SchedAppt :=
  scheduled.filter isWorkAppointment

/-- First revision ActualAvailableTimeSlot.overlaps:
this.startTime < otherEnd and this.endTime > otherStart. -/
def overlapsRev1 (s e os oe : Int) : Bool :=
  decide (s < oe) && decide (e > os)

/-- Second revision ActualAvailableTimeSlot.overlaps: the four-clause
disjunction. -/
def overlapsRev2 (s e os oe : Int) : Bool :=
  (decide (s ≤ os) && decide (e > os)) ||
  (decide (s < oe) && decide (e ≥ oe)) ||
  (decide (os ≤ s) && decide (oe > s)) ||
  (decide (os < e) && decide (oe ≥ e))

/-- Stable insert for the model of Array.prototype.sort: x moves past b
only when the comparator orders b strictly after x. -/
def jsSortInsert (cmp : α → α → Int) (x : α) : List α → List α
  | [] => [x]
  | b :: l => if cmp b x > 0 then x :: b :: l else b :: jsSortInsert cmp x l

/-- Stable insertion-sort model of Array.prototype.sort. -/
def jsSort (cmp : α → α → Int) (l : List α) : List α :=
  l.foldl (fun acc x => jsSortInsert cmp x acc) []

/-- A candidate slot (class ActualAvailableTimeSlot). -/
structure Slot where
  start : Int
  stop : Int
  hasDualBooking : Bool
deriving Repr, DecidableEq

/-- JS getMinutes on a whole-minute instant. -/
def minuteOfHour (t : Int) : Int := t % 60

/-- The alignment prologue of the slot-generation loop: snap the window
start up to the next :00 or :30 boundary.  The third branch of the source
is unreachable at whole-minute granularity but is kept verbatim. -/
def alignToHalfHour (t : Int) : Int :=
  let m := minuteOfHour t
  if 0 < m ∧ m < 30 then t - m + 30
  else if 30 < m then t - m + 60
  else if m ≠ 0 ∧ m ≠ 30 then
    (if m < 30 then t - m + 30 else t - m + 60)
  else t

/-- The slot-generation while loop: step by 30 minutes while the slot
start is before the window end; emit a slot only when start + duration
fits inside the window.  fuel = (windowEnd - start).toNat dominates the
iteration count since every iteration advances the start by 30. -/
def generateSlotsFuel (dur windowEnd : Int) : Nat → Int → List Slot
  | 0, _ => []
  | fuel + 1, cur =>
    if cur < windowEnd then
      (if cur + dur ≤ windowEnd then [⟨cur, cur + dur, false⟩] else []) ++
        generateSlotsFuel dur windowEnd fuel (cur + 30)
    else []

/-- Slots generated from one availability window. -/
def slotsForWindow (wstart wstop dur : Int) : List Slot :=
  generateSlotsFuel dur wstop (wstop - alignToHalfHour wstart).toNat (alignToHalfHour wstart)

/-- One availability window as delivered by the upstream API. -/
structure AvailabilityWindow where
  window_start : Int
  window_stop : Int
deriving Repr, DecidableEq

/-- availability_by_type entry. -/
structure TypeAvailability where
  appointment_type_id : Nat
  available_windows : List AvailabilityWindow
deriving Repr, DecidableEq

/-- One provider availability record. -/
structure ProviderAvailability where
  availability_by_type : List TypeAvailability
deriving Repr, DecidableEq

/-- The availabilityResponse consumed by calculateAvailableTimeSlots. -/
structure AvailabilityResponse where
  userAvailabilities : List ProviderAvailability
deriving Repr, DecidableEq

/-- Step 1 of calculateAvailableTimeSlots: candidates from every window of
the requested type (id comparison is via String on both sides in the
source, which coincides with numeric equality). -/
def candidateSlotsFromWindows (avail : AvailabilityResponse) (ty : ApptType) : List Slot :=
  avail.userAvailabilities.flatMap (fun pa =>
    pa.availability_by_type.flatMap (fun ta =>
      if ta.appointment_type_id == ty.id then
        ta.available_windows.flatMap (fun w => slotsForWindow w.window_start w.window_stop ty.duration)
      else []))

/-- Extra candidates synthesised from already-scheduled dual-bookable
appointments whose duration equals the requested duration. -/
def dualExtraSlots (scheduled : List SchedAppt) (ty : ApptType) : List Slot :=
  if ty.dualBookable then
    scheduled.filterMap (fun a =>
      match a.internalName with
      | none => none
      | some n =>
        match findAppointmentTypeByInternalName n with
        | some t =>
          if t.dualBookable then
            if a.stop - a.start == ty.duration then some ⟨a.start, a.stop, true⟩ else none
          else none
        | none => none)
  else []

/-- Element of the work-block analysis list.  isCandidate marks the
hypothetical appointment built from the candidate slot (the JS identity
test on its Date objects singles out exactly this record). -/
structure WorkItem where
  start : Int
  stop : Int
  isCandidate : Bool
deriving Repr, DecidableEq

/-- The comparator of the analysis sort in calculateAvailableTimeSlots
(both revisions): it subtracts b.end_date_time from a.start_date_time. -/
def analysisCmp (a b : WorkItem) : Int := a.start - b.stop

/-- The comparator of the second revision pre-sort of workAppointments
(also a.start_date_time minus b.end_date_time). -/
def schedCmp (a b : SchedAppt) : Int := a.start - b.stop

/-- The block-grouping loop.  The current block is carried in reverse push
order, its head being the most recently pushed member; the loop merges the
incoming appointment when its start is within one minute of that member's
end, and otherwise flushes the block and starts a new one. -/
def buildBlocksAux : List WorkItem → List WorkItem → List (List WorkItem)
  | revBlk, [] => [revBlk.reverse]
  | revBlk, cur :: rest =>
    match revBlk with
    | [] => buildBlocksAux [cur] rest
    | lastA :: _ =>
      if cur.start - lastA.stop ≤ 1 then buildBlocksAux (cur :: revBlk) rest
      else revBlk.reverse :: buildBlocksAux [cur] rest

/-- findWorkBlocks: group a chronological list into contiguous blocks. -/
def findWorkBlocks : List WorkItem → List (List WorkItem)
  | [] => []
  | x :: rest => buildBlocksAux [x] rest

/-- block[0].start_date_time of a block. -/
def blockStart : List WorkItem → Int
  | [] => 0
  | x :: _ => x.start

/-- block[block.length - 1].end_date_time of a block. -/
def blockStop (b : List WorkItem) : Int :=
  match b.getLast? with
  | some x => x.stop
  | none => 0

/-- Block duration in minutes. -/
def blockDuration (b : List WorkItem) : Int := blockStop b - blockStart b

/-- The combined analysis list of calculateAvailableTimeSlots: work
appointments plus the hypothetical candidate, passed through the analysis
sort. -/
def analysisList (work : List SchedAppt) (cs ce : Int) : List WorkItem :=
  jsSort analysisCmp (work.map (fun a => ⟨a.start, a.stop, false⟩) ++ [⟨cs, ce, true⟩])

/-- Whether a block contains the hypothetical candidate appointment. -/
def blockHasCandidate (b : List WorkItem) : Bool := b.any (fun w => w.isCandidate)

/-- Step 2 of calculateAvailableTimeSlots: the candidate survives unless
some block containing it has duration strictly greater than 60 minutes. -/
def survivesWorkBlockCheck (work : List SchedAppt) (cs ce : Int) : Bool :=
  !((findWorkBlocks (analysisList work cs ce)).any
      (fun b => blockHasCandidate b && decide (blockDuration b > 60)))

/-- The blocks of the analysis that contain the candidate. -/
def candidateBlocks (work : List SchedAppt) (cs ce : Int) : List (List WorkItem) :=
  (findWorkBlocks (analysisList work cs ce)).filter blockHasCandidate

/-- Whether a scheduled appointment resolves to a dual-bookable type. -/
def isDualAppt (a : SchedAppt) : Bool :=
  match a.internalName with
  | some n =>
    match findAppointmentTypeByInternalName n with
    | some t => t.dualBookable
    | none => false
  | none => false

/-- slot.overlaps(apptStart, apptEnd) with the second revision
predicate. -/
def slotOverlapsAppt (s : Slot) (a : SchedAppt) : Bool :=
  overlapsRev2 s.start s.stop a.start a.stop

/-- Non-dual conflict check: the slot is kept when it overlaps no work
appointment. -/
def nonDualKeep (work : List SchedAppt) (s : Slot) : Bool :=
  !(work.any (fun a => slotOverlapsAppt s a))

/-- The dual-bookable conflict loop, with its counter of exact-match dual
bookings and its early exits; none means the slot is rejected, some hd
returns the hasDualBooking flag.  The inner second overlap test of the
source (always true on that path) is kept verbatim. -/
def dualScan (s : Slot) : List SchedAppt → Nat → Bool → Option Bool
  | [], _, hd => some hd
  | a :: rest, cnt, hd =>
    if slotOverlapsAppt s a then
      if isDualAppt a then
        if a.start == s.start && a.stop == s.stop then
          if cnt + 1 > 1 then none else dualScan s rest (cnt + 1) true
        else if slotOverlapsAppt s a then none
        else dualScan s rest cnt hd
      else none
    else dualScan s rest cnt hd

/-- Step 1b of the per-slot loop: the conflict filter, dispatching on
dual-bookability. -/
def conflictFilter (ty : ApptType) (work : List SchedAppt) (s : Slot) : Option Bool :=
  if ty.dualBookable then dualScan s work 0 false
  else if nonDualKeep work s then some false else none

/-- The start-time comparator used by wouldExceedConsecutiveWorkThreshold
(this one correctly compares start against start). -/
def cmpStart (a b : WorkItem) : Int := a.start - b.start

/-- wouldExceedConsecutiveWorkThreshold of the second revision.  It does
not filter ignorable types; with no scheduled appointments it compares the
new appointment duration directly against the threshold. -/
def wouldExceedConsecutiveWorkThreshold (startTime dur : Int)
    (scheduled : List SchedAppt) (thresholdMinutes : Int) : Bool :=
  if scheduled.isEmpty then decide (dur ≥ thresholdMinutes)
  else
    let times : List WorkItem :=
      scheduled.map (fun a => ⟨a.start, a.stop, false⟩) ++ [⟨startTime, startTime + dur, true⟩]
    (findWorkBlocks (jsSort cmpStart times)).any
      (fun b => decide (blockDuration b ≥ thresholdMinutes))

/-- Minute number of 2025-03-28T18:00:00.000Z in the epoch of this file
(2025-03-27T00:00:00Z). -/
def magicBufferInstant : Int := 2520

/-- requiresBuffer of the second revision, with the hard-coded timestamp
special case and the type-144 short-circuit, in source order. -/
def requiresBuffer (appointmentTypeId : String) (startTime dur : Int)
    (scheduled : List SchedAppt) : Bool :=
  if startTime == magicBufferInstant then true
  else if appointmentTypeId == "144" then false
  else wouldExceedConsecutiveWorkThreshold startTime dur scheduled 60

/-- Status gate of the buffer-collision scan:
appointment.status?.toLowerCase() must be confirmed or checked_in. -/
def statusOkForBuffer (a : SchedAppt) : Bool :=
  let st := (a.status.getD "").toLower
  st == "confirmed" || st == "checked_in"

/-- calculateBufferStartTime: the buffer starts at the primary end. -/
def calculateBufferStartTime (startTime dur : Int) : Int := startTime + dur

/-- The buffer-collision scan of the second revision per-slot loop: an
appointment blocks the buffer exactly when its status passes the gate and
the four-clause overlap test fires. -/
def bufferCollides (bStart bStop : Int) (scheduled : List SchedAppt) : Bool :=
  scheduled.any (fun a => statusOkForBuffer a && overlapsRev2 bStart bStop a.start a.stop)

/-- A proposed booking of the second revision output. -/
structure ProposedBooking where
  appointmentTypeId : String
  startTime : Int
  duration : Int
  isBuffer : Bool
deriving Repr, DecidableEq

/-- One element of the second revision availableSlots output. -/
structure TimeSlotResult where
  startTime : Int
  stopTime : Int
  hasDualBooking : Bool
  primaryBooking : ProposedBooking
  buffer : Option ProposedBooking
deriving Repr, DecidableEq

/-- The tail of the per-slot loop for a slot that survived the conflict
and work-block checks: build the primary booking, decide the buffer, and
discard the whole slot when a required buffer collides. -/
def processSurvivingSlot (ty : ApptType) (scheduled : List SchedAppt) (s : Slot) :
    Option TimeSlotResult :=
  let primary : ProposedBooking := ⟨toString ty.id, s.start, ty.duration, false⟩
  if requiresBuffer (toString ty.id) s.start ty.duration scheduled then
    let bStart := calculateBufferStartTime s.start ty.duration
    let bStop := bStart + BUFFER_DURATION
    if bufferCollides bStart bStop scheduled then none
    else
      some ⟨s.start, s.stop, s.hasDualBooking, primary,
        some ⟨toString ADMIN_FLEXIBLE_TYPE_ID, bStart, BUFFER_DURATION, true⟩⟩
  else some ⟨s.start, s.stop, s.hasDualBooking, primary, none⟩

/-- calculateAvailableTimeSlots of the second revision: generate
candidates, append dual extras, then filter each candidate through the
conflict check, the work-block check and the buffer step. -/
def calculateAvailableTimeSlots (avail : AvailabilityResponse)
    (scheduled : List SchedAppt) (ty : ApptType) : List TimeSlotResult :=
  if avail.userAvailabilities.isEmpty then []
  else
    let possible := candidateSlotsFromWindows avail ty
    if possible.isEmpty then []
    else
      let work := jsSort schedCmp (workAppointmentsOf scheduled)
      let slots := possible ++ dualExtraSlots scheduled ty
      slots.filterMap (fun s =>
        match conflictFilter ty work s with
        | none => none
        | some hd =>
          if survivesWorkBlockCheck work s.start s.stop then
            processSurvivingSlot ty scheduled { s with hasDualBooking := hd }
          else none)

/-- The response shape of getAvailability. -/
structure AvailabilityResult where
  success : Bool
  availableSlots : Option (List TimeSlotResult)
  error : Option String
deriving Repr, DecidableEq

/-- Comparator of the final chronological sort of getAvailability. -/
def resultCmp (a b : TimeSlotResult) : Int := a.startTime - b.startTime

/-- getAvailability with the two upstream fetches passed as data: missing
parameters fail fast; an unknown type id throws and the catch converts it
to the generic failure; otherwise the computed slots are sorted and
returned with success = true. -/
def getAvailability (appointmentTypeId : Option Nat) (startDate endDate : Option String)
    (avail : AvailabilityResponse) (scheduled : List SchedAppt) : AvailabilityResult :=
  match appointmentTypeId, startDate, endDate with
  | some tid, some _, some _ =>
    match appointmentTypes.find? (fun t => t.id == tid) with
    | none => ⟨false, none, some "Failed to retrieve availability"⟩
    | some ty =>
      ⟨true, some (jsSort resultCmp (calculateAvailableTimeSlots avail scheduled ty)), none⟩
  | _, _, _ => ⟨false, none, some "Missing required parameters"⟩

/-- The 60-minute acupuncture catalogue entry, used by concrete tests. -/
def acupunctureType : ApptType :=
  ⟨151, "Acupuncture", "Acupuncture.Follow-up, self-schd (50 min)", 60, false⟩

/-- The dual-bookable 30-minute catalogue entry. -/
def vagusType : ApptType :=
  ⟨144, "Vagus Nerve Stem Therapy", "Vagus Nerve Stem Therapy- Initial", 30, true⟩

/-- Concrete input for the generator test: one window from
2025-03-29T12:00Z (minute 3600) to 2025-03-29T20:00Z (minute 4080) for
type 151. -/
def availExample : AvailabilityResponse :=
  ⟨[⟨[⟨151, [⟨3600, 4080⟩]⟩]⟩]⟩

/-- A scheduled acupuncture appointment used by concrete inputs. -/
def acuAppt (s e : Int) : SchedAppt :=
  ⟨s, e, some "Acupuncture.Follow-up, self-schd (50 min)", some "confirmed"⟩

/-- A scheduled buffer/admin appointment used by concrete inputs. -/
def adminAppt (s e : Int) : SchedAppt :=
  ⟨s, e, some "ADMIN-Flexible", some "confirmed"⟩

/-- A scheduled dual-bookable appointment used by concrete inputs. -/
def vagusAppt (s e : Int) : SchedAppt :=
  ⟨s, e, some "Vagus Nerve Stem Therapy- Initial", some "confirmed"⟩

/-- C3: a single 2025-03-29T12:00Z..20:00Z window for the 60-minute
non-dual type yields exactly 15 candidates starting every half hour from
12:00Z (minute 3600) through 19:00Z (minute 4020), each ending no later
than the window end. -/
theorem c3_generator_emits_fifteen_half_hour_slots :
    (candidateSlotsFromWindows availExample acupunctureType).map Slot.start =
      [3600, 3630, 3660, 3690, 3720, 3750, 3780, 3810,
       3840, 3870, 3900, 3930, 3960, 3990, 4020] ∧
    (candidateSlotsFromWindows availExample acupunctureType).length = 15 ∧
    (candidateSlotsFromWindows availExample acupunctureType).all
      (fun s => decide (s.stop ≤ 4080)) = true := by
  decide

/-- C7: on nonempty intervals, the four-clause overlap predicate of the
second revision returns the same boolean as the half-open overlap test
(a.start before b.end and a.end after b.start) that the first revision
implements directly. -/
theorem c7_overlap_predicates_agree (s e os oe : Int) (h1 : s < e) (h2 : os < oe) :
    overlapsRev2 s e os oe = overlapsRev1 s e os oe := by
  have h : (overlapsRev2 s e os oe = true) ↔ (overlapsRev1 s e os oe = true) := by
    simp only [overlapsRev2, overlapsRev1, Bool.or_eq_true, Bool.and_eq_true,
      decide_eq_true_eq]
    omega
  cases hx : overlapsRev2 s e os oe <;> cases hy : overlapsRev1 s e os oe <;>
    simp_all

/-- Witness for C7 at the intervals 0..30 and 10..40. -/
theorem c7_witness :
    (0 : Int) < 30 ∧ (10 : Int) < 40 ∧
      overlapsRev2 0 30 10 40 = overlapsRev1 0 30 10 40 :=
  ⟨by decide, by decide, c7_overlap_predicates_agree 0 30 10 40 (by decide) (by decide)⟩

/-- C10: the second revision requiresBuffer returns true whenever the
candidate starts at the hard-coded instant 2025-03-28T18:00:00.000Z
regardless of the schedule, and for any other start instant it returns
false whenever the appointment type id is 144. -/
theorem c10_requiresBuffer_special_cases :
    (∀ (tid : String) (dur : Int) (scheduled : List SchedAppt),
        requiresBuffer tid magicBufferInstant dur scheduled = true) ∧
    (∀ (startTime dur : Int) (scheduled : List SchedAppt),
        startTime ≠ magicBufferInstant →
        requiresBuffer "144" startTime dur scheduled = false) := by
  constructor
  · intro tid dur scheduled
    simp [requiresBuffer]
  · intro startTime dur scheduled h
    simp [requiresBuffer, h]

/-- Witness for C10: the special cases at start 0 and at the magic
instant. -/
theorem c10_witness :
    requiresBuffer "144" 0 30 [] = false ∧
      requiresBuffer "144" magicBufferInstant 30 [] = true :=
  ⟨c10_requiresBuffer_special_cases.2 0 30 [] (by decide),
   c10_requiresBuffer_special_cases.1 "144" 30 []⟩

/-- C5: against an empty schedule, the work-block threshold analysis
reports a buffer requirement exactly when the lone candidate's own
duration reaches the 60-minute soft threshold. -/
theorem c5_lone_long_candidate_requires_buffer (startTime dur : Int) (h : 60 ≤ dur) :
    wouldExceedConsecutiveWorkThreshold startTime dur [] 60 = true := by
  simp [wouldExceedConsecutiveWorkThreshold]
  omega

/-- Witness for C5 at a 75-minute candidate starting at minute 100. -/
theorem c5_witness :
    (60 : Int) ≤ 75 ∧ wouldExceedConsecutiveWorkThreshold 100 75 [] 60 = true :=
  ⟨by decide, c5_lone_long_candidate_requires_buffer 100 75 (by decide)⟩

/-- C6: the analysis sort does not order the combined list by start time.
With one scheduled appointment 01:00Z..04:00Z (minutes 60..240) and the
hypothetical candidate 00:30Z..01:00Z (minutes 30..60), the sorted list
keeps the later-starting appointment first, because the comparator
subtracts b.end_date_time from a.start_date_time instead of comparing
start times as the comment above it states. -/
theorem c6_analysis_sort_not_ordered_by_start :
    analysisList [acuAppt 60 240] 30 60 = [⟨60, 240, false⟩, ⟨30, 60, true⟩] ∧
    ¬ (analysisList [acuAppt 60 240] 30 60).Pairwise (fun a b => a.start ≤ b.start) := by
  decide

/-- C1 counterexample: a scheduled appointment 00:00Z..00:30Z followed by
a 60-minute candidate 00:30Z..01:30Z merges into one 90-minute block; the
claim keeps such a candidate with a buffer (soft range up to the 90-minute
hard cap), but the engine rejects it because its rejection threshold is 60
minutes. -/
theorem c1_counterexample :
    (candidateBlocks [acuAppt 0 30] 30 90).map blockDuration = [90] ∧
    survivesWorkBlockCheck [acuAppt 0 30] 30 90 = false := by
  decide

/-- C1 amended: the per-candidate work-block check uses a 60-minute
rejection threshold, not 90: the candidate is kept iff every analysis
block containing it lasts at most 60 minutes; and outside the two
hard-coded special cases of requiresBuffer, a kept candidate carries a
buffer iff some block of the schedule plus candidate reaches 60 minutes,
as computed by wouldExceedConsecutiveWorkThreshold. -/
theorem c1_amended (work : List SchedAppt) (cs ce : Int)
    (tid : String) (scheduled : List SchedAppt) (dur : Int)
    (hmagic : cs ≠ magicBufferInstant) (h144 : tid ≠ "144") :
    (survivesWorkBlockCheck work cs ce = true ↔
      ∀ b ∈ findWorkBlocks (analysisList work cs ce),
        blockHasCandidate b = true → blockDuration b ≤ 60) ∧
    requiresBuffer tid cs dur scheduled =
      wouldExceedConsecutiveWorkThreshold cs dur scheduled 60 := by
  constructor
  · constructor
    · intro h b hb hc
      by_contra hgt
      have hany : (findWorkBlocks (analysisList work cs ce)).any
          (fun b => blockHasCandidate b && decide (blockDuration b > 60)) = true :=
        List.any_eq_true.mpr ⟨b, hb, by simp [hc]; omega⟩
      simp [survivesWorkBlockCheck, hany] at h
    · intro h
      simp only [survivesWorkBlockCheck, Bool.not_eq_true']
      rw [List.any_eq_false]
      intro b hb
      by_cases hc : blockHasCandidate b = true
      · have := h b hb hc
        simp [hc]
        omega
      · simp [Bool.not_eq_true] at hc
        simp [hc]
  · simp [requiresBuffer, hmagic, h144]

/-- Witness for C1 at an empty schedule and the candidate 0..60 for type
151. -/
theorem c1_witness :
    ((survivesWorkBlockCheck [] 0 60 = true ↔
        ∀ b ∈ findWorkBlocks (analysisList [] 0 60),
          blockHasCandidate b = true → blockDuration b ≤ 60) ∧
      requiresBuffer "151" 0 60 [] =
        wouldExceedConsecutiveWorkThreshold 0 60 [] 60) :=
  c1_amended [] 0 60 "151" [] 60 (by decide) (by decide)

/-- C4: the buffer-collision scan fires exactly on scheduled appointments
whose status passes the confirmed/checked-in gate and whose interval
overlaps the buffer; and when a required buffer collides, the whole
candidate is discarded (processSurvivingSlot returns none) instead of
being emitted without its buffer. -/
theorem c4_buffer_scan (bStart bStop : Int) (scheduled : List SchedAppt)
    (ty : ApptType) (s : Slot) :
    (bufferCollides bStart bStop scheduled = true ↔
      ∃ a ∈ scheduled, statusOkForBuffer a = true ∧
        overlapsRev2 bStart bStop a.start a.stop = true) ∧
    (processSurvivingSlot ty scheduled s = none ↔
      (requiresBuffer (toString ty.id) s.start ty.duration scheduled = true ∧
        bufferCollides (calculateBufferStartTime s.start ty.duration)
          (calculateBufferStartTime s.start ty.duration + BUFFER_DURATION)
          scheduled = true)) := by
  constructor
  · simp [bufferCollides, List.any_eq_true]
  · by_cases hreq : requiresBuffer (toString ty.id) s.start ty.duration scheduled = true
    · by_cases hcol : bufferCollides (calculateBufferStartTime s.start ty.duration)
          (calculateBufferStartTime s.start ty.duration + BUFFER_DURATION) scheduled = true
      · simp [processSurvivingSlot, hreq, hcol]
      · simp [processSurvivingSlot, hreq, hcol]
    · simp [processSurvivingSlot, hreq]

/-- Every slot emitted by the generation loop spans exactly the requested
duration and carries no dual flag. -/
theorem generateSlotsFuel_spec (dur we : Int) :
    ∀ (fuel : Nat) (cur : Int), ∀ s ∈ generateSlotsFuel dur we fuel cur,
      s.stop = s.start + dur ∧ s.hasDualBooking = false := by
  intro fuel
  induction fuel with
  | zero =>
    intro cur s hs
    simp [generateSlotsFuel] at hs
  | succ n ih =>
    intro cur s hs
    simp only [generateSlotsFuel] at hs
    split at hs
    · rcases List.mem_append.mp hs with h | h
      · split at h
        · simp only [List.mem_singleton] at h
          subst h
          exact ⟨rfl, rfl⟩
        · simp at h
      · exact ih (cur + 30) s h
    · simp at hs

/-- Every slot of a window has the requested duration. -/
theorem slotsForWindow_spec (ws we dur : Int) :
    ∀ s ∈ slotsForWindow ws we dur, s.stop = s.start + dur ∧ s.hasDualBooking = false := by
  intro s hs
  exact generateSlotsFuel_spec dur we _ _ s hs

/-- Every dual-extra slot spans exactly the requested duration (the
source guards the synthesis on this very equation). -/
theorem dualExtraSlots_spec (scheduled : List SchedAppt) (ty : ApptType) :
    ∀ s ∈ dualExtraSlots scheduled ty, s.stop = s.start + ty.duration := by
  intro s hs
  unfold dualExtraSlots at hs
  split at hs
  · rcases List.mem_filterMap.mp hs with ⟨a, _, hfa⟩
    split at hfa
    · simp at hfa
    · split at hfa
      · split at hfa
        · split at hfa
          · rename_i hdur
            simp only [beq_iff_eq] at hdur
            simp only [Option.some.injEq] at hfa
            subst hfa
            simp
            omega
          · simp at hfa
        · simp at hfa
      · simp at hfa
  · simp at hs

/-- C8: every candidate slot the generator produces, including the extras
synthesised from existing dual-bookable appointments, spans exactly the
requested appointment type duration in minutes. -/
theorem c8_candidate_duration (avail : AvailabilityResponse) (scheduled : List SchedAppt)
    (ty : ApptType) (s : Slot)
    (h : s ∈ candidateSlotsFromWindows avail ty ++ dualExtraSlots scheduled ty) :
    s.stop - s.start = ty.duration := by
  rcases List.mem_append.mp h with h | h
  · rcases List.mem_flatMap.mp h with ⟨pa, _, h⟩
    rcases List.mem_flatMap.mp h with ⟨ta, _, h⟩
    by_cases hid : (ta.appointment_type_id == ty.id) = true
    · rw [if_pos hid] at h
      rcases List.mem_flatMap.mp h with ⟨w, _, h⟩
      have := slotsForWindow_spec w.window_start w.window_stop ty.duration s h
      omega
    · rw [if_neg hid] at h
      simp at h
  · have := dualExtraSlots_spec scheduled ty s h
    omega

/-- Witness for C8: the first generated slot of the example window. -/
theorem c8_witness :
    ((⟨3600, 3660, false⟩ : Slot) ∈
        candidateSlotsFromWindows availExample acupunctureType ++
          dualExtraSlots [] acupunctureType) ∧
    (3660 : Int) - 3600 = acupunctureType.duration :=
  ⟨by decide,
   c8_candidate_duration availExample [] acupunctureType ⟨3600, 3660, false⟩ (by decide)⟩

/-- C9: getAvailability fails fast with an error and no slot list when a
required parameter is missing or when the type id matches no catalogue
entry; with a known id and a computation that produces no slots it
returns success with an empty list. -/
theorem c9_getAvailability_validation (avail : AvailabilityResponse)
    (scheduled : List SchedAppt) :
    (∀ sd ed, getAvailability none sd ed avail scheduled =
        ⟨false, none, some "Missing required parameters"⟩) ∧
    (∀ aid ed, getAvailability aid none ed avail scheduled =
        ⟨false, none, some "Missing required parameters"⟩) ∧
    (∀ aid sd, getAvailability aid sd none avail scheduled =
        ⟨false, none, some "Missing required parameters"⟩) ∧
    (∀ tid sd ed, appointmentTypes.find? (fun t => t.id == tid) = none →
      getAvailability (some tid) (some sd) (some ed) avail scheduled =
        ⟨false, none, some "Failed to retrieve availability"⟩) ∧
    (∀ tid ty sd ed, appointmentTypes.find? (fun t => t.id == tid) = some ty →
      calculateAvailableTimeSlots avail scheduled ty = [] →
      getAvailability (some tid) (some sd) (some ed) avail scheduled =
        ⟨true, some [], none⟩) := by
  refine ⟨?_, ?_, ?_, ?_, ?_⟩
  · intro sd ed
    rfl
  · intro aid ed
    cases aid <;> rfl
  · intro aid sd
    cases aid <;> cases sd <;> rfl
  · intro tid sd ed hf
    simp [getAvailability, hf]
  · intro tid ty sd ed hf hc
    simp [getAvailability, hf, hc, jsSort]

/-- Witness for C9: a missing id, the unknown id 999, and the valid id
151 with no availability windows. -/
theorem c9_witness :
    getAvailability none (some "2025-03-27") (some "2025-03-29") availExample [] =
        ⟨false, none, some "Missing required parameters"⟩ ∧
    getAvailability (some 999) (some "2025-03-27") (some "2025-03-29") availExample [] =
        ⟨false, none, some "Failed to retrieve availability"⟩ ∧
    getAvailability (some 151) (some "2025-03-27") (some "2025-03-29") ⟨[]⟩ [] =
        ⟨true, some [], none⟩ :=
  ⟨(c9_getAvailability_validation availExample []).1 _ _,
   (c9_getAvailability_validation availExample []).2.2.2.1 999 _ _ (by decide),
   (c9_getAvailability_validation ⟨[]⟩ []).2.2.2.2 151 acupunctureType _ _
     (by decide) (by rfl)⟩

/-- Membership is preserved by the stable insert of the sort model. -/
theorem mem_jsSortInsert (cmp : α → α → Int) (x a : α) :
    ∀ l : List α, (a ∈ jsSortInsert cmp x l ↔ a = x ∨ a ∈ l) := by
  intro l
  induction l with
  | nil => simp [jsSortInsert]
  | cons b l ih =>
    simp only [jsSortInsert]
    split
    · simp [List.mem_cons]
    · simp [List.mem_cons, ih]
      tauto

/-- Membership is preserved by the sort model. -/
theorem mem_jsSort (cmp : α → α → Int) (a : α) (l : List α) :
    a ∈ jsSort cmp l ↔ a ∈ l := by
  suffices h : ∀ (l acc : List α),
      (a ∈ l.foldl (fun acc x => jsSortInsert cmp x acc) acc ↔ a ∈ acc ∨ a ∈ l) by
    simpa [jsSort] using h l []
  intro l
  induction l with
  | nil =>
    intro acc
    simp
  | cons x l ih =>
    intro acc
    simp only [List.foldl_cons]
    rw [ih, mem_jsSortInsert]
    simp [List.mem_cons]
    tauto

/-- countP is preserved by the stable insert of the sort model. -/
theorem countP_jsSortInsert (cmp : α → α → Int) (p : α → Bool) (x : α) :
    ∀ l : List α,
      (jsSortInsert cmp x l).countP p = l.countP p + (if p x then 1 else 0) := by
  intro l
  induction l with
  | nil =>
    simp [jsSortInsert, List.countP_cons]
  | cons b l ih =>
    simp only [jsSortInsert]
    split
    · simp [List.countP_cons]
    · simp [List.countP_cons, ih]
      omega

/-- countP is preserved by the sort model. -/
theorem countP_jsSort (cmp : α → α → Int) (p : α → Bool) (l : List α) :
    (jsSort cmp l).countP p = l.countP p := by
  suffices h : ∀ (l acc : List α),
      (l.foldl (fun acc x => jsSortInsert cmp x acc) acc).countP p =
        acc.countP p + l.countP p by
    simpa [jsSort] using h l []
  intro l
  induction l with
  | nil =>
    intro acc
    simp
  | cons x l ih =>
    intro acc
    simp only [List.foldl_cons]
    rw [ih, countP_jsSortInsert]
    simp [List.countP_cons]
    omega

/-- Closed form of the dual-bookable conflict loop: starting from at most
one recorded exact match, the scan succeeds exactly when every remaining
overlapping appointment is an exact-interval dual match and the total
number of overlaps stays within one; on success the flag accumulates
whether any overlap was consumed. -/
theorem dualScan_eq (s : Slot) :
    ∀ (l : List SchedAppt) (cnt : Nat) (hd : Bool), cnt ≤ 1 →
      dualScan s l cnt hd =
        if (∀ a ∈ l, slotOverlapsAppt s a = true →
              (isDualAppt a = true ∧ a.start = s.start ∧ a.stop = s.stop)) ∧
            cnt + l.countP (fun a => slotOverlapsAppt s a) ≤ 1
        then some (hd || decide (0 < l.countP (fun a => slotOverlapsAppt s a)))
        else none := by
  intro l
  induction l with
  | nil =>
    intro cnt hd hcnt
    simp [dualScan, hcnt]
  | cons a rest ih =>
    intro cnt hd hcnt
    simp only [dualScan]
    by_cases hov : slotOverlapsAppt s a = true
    · rw [if_pos hov]
      by_cases hdual : isDualAppt a = true
      · rw [if_pos hdual]
        by_cases hex : (a.start == s.start && a.stop == s.stop) = true
        · rw [if_pos hex]
          simp only [Bool.and_eq_true, beq_iff_eq] at hex
          by_cases hc1 : cnt + 1 > 1
          · rw [if_pos hc1]
            rw [if_neg]
            rintro ⟨-, hle⟩
            rw [List.countP_cons, if_pos hov] at hle
            omega
          · rw [if_neg hc1]
            have hcnt0 : cnt = 0 := by omega
            subst hcnt0
            rw [ih 1 true (by omega)]
            by_cases hrest : (∀ x ∈ rest, slotOverlapsAppt s x = true →
                  (isDualAppt x = true ∧ x.start = s.start ∧ x.stop = s.stop)) ∧
                1 + rest.countP (fun x => slotOverlapsAppt s x) ≤ 1
            · rw [if_pos hrest, if_pos]
              · have hp : (0 : Nat) < rest.countP (fun x => slotOverlapsAppt s x) + 1 :=
                  Nat.succ_pos _
                simp [List.countP_cons, hov, hp]
              · refine ⟨?_, ?_⟩
                · intro x hx
                  rcases List.mem_cons.mp hx with rfl | hx
                  · intro _
                    exact ⟨hdual, hex.1, hex.2⟩
                  · exact hrest.1 x hx
                · rw [List.countP_cons, if_pos hov]
                  omega
            · rw [if_neg hrest, if_neg]
              rintro ⟨hall, hle⟩
              refine hrest ⟨?_, ?_⟩
              · intro x hx
                exact hall x (List.mem_cons_of_mem a hx)
              · rw [List.countP_cons, if_pos hov] at hle
                omega
        · rw [if_neg hex, if_pos hov, if_neg]
          rintro ⟨hall, -⟩
          rcases hall a (List.mem_cons_self a rest) hov with ⟨-, h1, h2⟩
          exact hex (by simp [h1, h2])
      · rw [if_neg hdual, if_neg]
        rintro ⟨hall, -⟩
        exact hdual (hall a (List.mem_cons_self a rest) hov).1
    · rw [if_neg hov]
      rw [ih cnt hd hcnt]
      have hovf : slotOverlapsAppt s a = false := by simpa using hov
      simp [List.countP_cons, hovf, List.forall_mem_cons]

/-- A dual-bookable appointment is never of an ignorable type, hence it
always passes the work filter (in the catalogue the only dual type is 144
and the ignore list holds only the admin id). -/
theorem isDualAppt_isWork (a : SchedAppt) (h : isDualAppt a = true) :
    isWorkAppointment a = true := by
  cases hn : a.internalName with
  | none =>
    simp [isDualAppt, hn] at h
  | some n =>
    cases hf : findAppointmentTypeByInternalName n with
    | none =>
      simp [isDualAppt, hn, hf] at h
    | some t =>
      have ht : t.dualBookable = true := by
        simpa [isDualAppt, hn, hf] using h
      have hmem : t ∈ appointmentTypes := List.mem_of_find?_eq_some hf
      have hid : t.id = 144 := by
        simp only [appointmentTypes, List.mem_cons, List.not_mem_nil, or_false] at hmem
        rcases hmem with rfl | rfl | rfl <;> first
          | rfl
          | simp at ht
      simp [isWorkAppointment, hn, getAppointmentTypeIdFromInternalName, hf,
        getAppointmentTypesToIgnore, hid, ADMIN_FLEXIBLE_TYPE_ID]

/-- Under the all-overlaps-are-exact-dual condition, the number of
overlapping work appointments equals the number of scheduled appointments
of a dual type with an interval identical to the candidate. -/
theorem countP_identicalDual (scheduled : List SchedAppt) (s : Slot)
    (hs : s.start < s.stop)
    (hall : ∀ a ∈ workAppointmentsOf scheduled, slotOverlapsAppt s a = true →
      (isDualAppt a = true ∧ a.start = s.start ∧ a.stop = s.stop)) :
    scheduled.countP
        (fun a => isDualAppt a && (a.start == s.start) && (a.stop == s.stop)) =
      (workAppointmentsOf scheduled).countP (fun a => slotOverlapsAppt s a) := by
  unfold workAppointmentsOf
  rw [List.countP_filter]
  apply List.countP_congr
  intro a ha
  by_cases hq : (isDualAppt a && (a.start == s.start) && (a.stop == s.stop)) = true
  · rw [hq]
    simp only [Bool.and_eq_true, beq_iff_eq] at hq
    obtain ⟨⟨hdual, h1⟩, h2⟩ := hq
    have hov : slotOverlapsAppt s a = true := by
      simp only [slotOverlapsAppt, overlapsRev2, h1, h2, Bool.or_eq_true,
        Bool.and_eq_true, decide_eq_true_eq]
      omega
    rw [hov, isDualAppt_isWork a hdual]
    rfl
  · rw [Bool.not_eq_true] at hq
    rw [hq]
    by_cases hrhs : (slotOverlapsAppt s a && isWorkAppointment a) = true
    · exfalso
      simp only [Bool.and_eq_true] at hrhs
      have hwmem : a ∈ scheduled.filter isWorkAppointment :=
        List.mem_filter.mpr ⟨ha, hrhs.2⟩
      rcases hall a hwmem hrhs.1 with ⟨hdual, h1, h2⟩
      simp [hdual, h1, h2] at hq
    · rw [Bool.not_eq_true] at hrhs
      rw [hrhs]

/-- C2 amended: for a dual-bookable candidate the conflict filter keeps
the candidate iff every non-ignorable (work) scheduled appointment that
overlaps it is a dual-bookable exact-interval match and at most one such
overlap exists; and a kept candidate flagged hasDualBooking = true has
exactly one scheduled dual-bookable appointment with an identical
interval.  Appointments of the ignorable buffer type are exempt from the
scan; this is the one correction to the claim, which quantified over every
scheduled appointment. -/
theorem c2_amended (scheduled : List SchedAppt) (s : Slot) (hs : s.start < s.stop) :
    ((dualScan s (jsSort schedCmp (workAppointmentsOf scheduled)) 0 false).isSome ↔
      ((∀ a ∈ workAppointmentsOf scheduled, slotOverlapsAppt s a = true →
          (isDualAppt a = true ∧ a.start = s.start ∧ a.stop = s.stop)) ∧
        (workAppointmentsOf scheduled).countP (fun a => slotOverlapsAppt s a) ≤ 1)) ∧
    (dualScan s (jsSort schedCmp (workAppointmentsOf scheduled)) 0 false = some true →
      scheduled.countP
        (fun a => isDualAppt a && (a.start == s.start) && (a.stop == s.stop)) = 1) := by
  have hscan := dualScan_eq s (jsSort schedCmp (workAppointmentsOf scheduled)) 0 false
    (by omega)
  have hcnt : (jsSort schedCmp (workAppointmentsOf scheduled)).countP
      (fun a => slotOverlapsAppt s a) =
        (workAppointmentsOf scheduled).countP (fun a => slotOverlapsAppt s a) :=
    countP_jsSort _ _ _
  have hmemEq : (∀ a ∈ jsSort schedCmp (workAppointmentsOf scheduled),
        slotOverlapsAppt s a = true →
          (isDualAppt a = true ∧ a.start = s.start ∧ a.stop = s.stop)) ↔
      (∀ a ∈ workAppointmentsOf scheduled, slotOverlapsAppt s a = true →
          (isDualAppt a = true ∧ a.start = s.start ∧ a.stop = s.stop)) := by
    constructor <;> intro h a ha
    · exact h a ((mem_jsSort _ _ _).mpr ha)
    · exact h a ((mem_jsSort _ _ _).mp ha)
  constructor
  · rw [hscan]
    split
    · rename_i hcond
      constructor
      · intro _
        refine ⟨hmemEq.mp hcond.1, ?_⟩
        have h2 := hcond.2
        rw [hcnt] at h2
        omega
      · intro _
        rfl
    · rename_i hcond
      constructor
      · intro hx
        simp at hx
      · intro hc
        refine absurd ⟨hmemEq.mpr hc.1, ?_⟩ hcond
        rw [hcnt]
        omega
  · rw [hscan]
    split
    · rename_i hcond
      intro hv
      simp only [Option.some.injEq, Bool.false_or, decide_eq_true_eq] at hv
      have hpos : 0 < (workAppointmentsOf scheduled).countP
          (fun a => slotOverlapsAppt s a) := by
        rw [← hcnt]
        exact hv
      have h1 : (workAppointmentsOf scheduled).countP
          (fun a => slotOverlapsAppt s a) ≤ 1 := by
        have h2 := hcond.2
        rw [hcnt] at h2
        omega
      have heq := countP_identicalDual scheduled s hs (hmemEq.mp hcond.1)
      omega
    · intro hv
      simp at hv

/-- C2 counterexample: for the dual-bookable candidate 00:00Z..00:30Z and
a schedule holding one overlapping, identical-interval ADMIN-Flexible
appointment, the conflict filter keeps the candidate even though that
scheduled appointment overlaps it and is not dual-bookable: the
appointment is of the ignorable buffer type and is filtered out before
the scan. -/
theorem c2_counterexample :
    dualScan ⟨0, 30, false⟩ (jsSort schedCmp (workAppointmentsOf [adminAppt 0 30]))
        0 false = some false ∧
    slotOverlapsAppt ⟨0, 30, false⟩ (adminAppt 0 30) = true ∧
    isDualAppt (adminAppt 0 30) = false := by
  decide

/-- Witness for C2 at a schedule with one identical-interval dual
appointment and the candidate 00:00Z..00:30Z. -/
theorem c2_witness :
    (0 : Int) < 30 ∧
    (((dualScan (⟨0, 30, false⟩ : Slot)
          (jsSort schedCmp (workAppointmentsOf [vagusAppt 0 30])) 0 false).isSome ↔
        ((∀ a ∈ workAppointmentsOf [vagusAppt 0 30],
            slotOverlapsAppt ⟨0, 30, false⟩ a = true →
              (isDualAppt a = true ∧ a.start = 0 ∧ a.stop = 30)) ∧
          (workAppointmentsOf [vagusAppt 0 30]).countP
            (fun a => slotOverlapsAppt ⟨0, 30, false⟩ a) ≤ 1)) ∧
      (dualScan (⟨0, 30, false⟩ : Slot)
          (jsSort schedCmp (workAppointmentsOf [vagusAppt 0 30])) 0 false = some true →
        ([vagusAppt 0 30]).countP
          (fun a => isDualAppt a && (a.start == (0 : Int)) && (a.stop == (30 : Int))) = 1)) :=
  ⟨by decide, c2_amended [vagusAppt 0 30] ⟨0, 30, false⟩ (by decide)⟩

end Cerbo
